import Mathlib

/-
Verification of the laser beam detection core of the laser-eye-finder
repository (src/src/hooks/useLaserDetector.ts).

Modelling conventions:
- ImageData is embedded as `Frame` (width, height, flat byte list).  Pixel
  bytes are modelled as rationals; camera data is integer 0..255, and all
  the arithmetic the detector performs on it (sums, division by 3, the
  threshold formulas) is exact over the rationals.
- A JavaScript out-of-range typed-array read yields undefined, and every
  arithmetic expression containing it is NaN; every comparison with NaN is
  false.  Concretely, in detectLaser a pixel with any missing channel can
  never satisfy a candidate condition, is never counted as a bloom pixel,
  and is never included in the refinement sums.  `pix3` returns `none` for
  such a pixel and the consumers treat `none` exactly that way.
- Math.round is round-half-up, i.e. `fun q => Int.floor (q + 1/2)`.
- Mutable accumulation loops (candidate list, bloom counters, refinement
  sums, position history) are rendered as list constructions and sums over
  the same index ranges in the same order.
-/

inductive ColorMode
  | red
  | green
  | auto
deriving DecidableEq

inductive LaserColor
  | red
  | green
deriving DecidableEq

/-- One RGBA frame: width, height, and the flat pixel byte list
(row-major, 4 bytes per pixel). -/
structure Frame where
  width : ℕ
  height : ℕ
  data : List ℚ
deriving DecidableEq

/-- DetectorSettings from useLaserDetector.ts (lines 5-12). -/
structure DetectorSettings where
  sensitivity : ℚ
  colorMode : ColorMode
  smoothing : ℚ
  flickerFilter : Bool
  mirror : Bool
  rotation : ℚ
deriving DecidableEq

/-- DetectionResult from useLaserDetector.ts (lines 14-20). -/
structure DetectionResult where
  found : Bool
  x : ℚ
  y : ℚ
  intensity : ℤ
  detectedColor : Option LaserColor
deriving DecidableEq

/-- A scan candidate as pushed at line 104: `{ x, y, r, g, b, score }`.
The per-pixel `color` local of the source is not part of the record. -/
structure Candidate where
  x : ℕ
  y : ℕ
  r : ℚ
  g : ℚ
  b : ℚ
  score : ℚ
deriving DecidableEq

/-- The record stored in calibrationDataRef (line 196 / lines 267-270). -/
structure CalibrationState where
  avgBrightness : ℚ
  threshold : ℚ
deriving DecidableEq

/-- JavaScript Math.round: round half toward positive infinity. -/
def jsRound (q : ℚ) : ℤ := ⌊q + 1/2⌋

/-- Arithmetic mean of a list, as computed by reduce-sum / length. -/
def listMean (l : List ℚ) : ℚ := l.sum / (l.length : ℚ)

/-- Read the three color channels of pixel (x, y):
`i = (y * width + x) * 4; r = data[i]; g = data[i+1]; b = data[i+2]`.
`none` models the NaN-poisoned reads past the end of the buffer. -/
def pix3 (f : Frame) (x y : ℕ) : Option (ℚ × ℚ × ℚ) :=
  match f.data.get? ((y * f.width + x) * 4), f.data.get? ((y * f.width + x) * 4 + 1),
        f.data.get? ((y * f.width + x) * 4 + 2) with
  | some r, some g, some b => some (r, g, b)
  | _, _, _ => none

/-- Green candidate condition (lines 76-85): color mode green or auto, and
(isSaturatedGreen or isGreenBloom). -/
abbrev greenFires (satT bloomT : ℚ) (mode : ColorMode) (r g b : ℚ) : Prop :=
  (mode = ColorMode.green ∨ mode = ColorMode.auto) ∧
  ((g ≥ satT ∧ (g - max r b > 20 ∨ (g > 250 ∧ r > 200 ∧ b > 150))) ∨
   (g > bloomT ∧ g > r * 0.9 ∧ g > b * 1.1))

/-- Red candidate condition (lines 88-93): color mode red or auto, and
(isSaturatedRed or isRedBloom). -/
abbrev redFires (satT bloomT : ℚ) (mode : ColorMode) (r g b : ℚ) : Prop :=
  (mode = ColorMode.red ∨ mode = ColorMode.auto) ∧
  ((r ≥ satT ∧ (r - max g b > 20 ∨ (r > 250 ∧ g > 150 ∧ b > 100))) ∨
   (r > bloomT ∧ r > g * 1.2 ∧ r > b * 1.3))

/-- Green score (line 83):
`g + (greenDominance > 0 ? greenDominance * 2 : 0) + (brightness > 250 ? 100 : 0)`. -/
def greenScoreOf (r g b : ℚ) : ℚ :=
  g + (if g - max r b > 0 then (g - max r b) * 2 else 0) +
    (if (r + g + b) / 3 > 250 then 100 else 0)

/-- Red score (line 94), symmetric to the green one. -/
def redScoreOf (r g b : ℚ) : ℚ :=
  r + (if r - max g b > 0 then (r - max g b) * 2 else 0) +
    (if (r + g + b) / 3 > 250 then 100 else 0)

/-- Body of the scan loop (lines 64-105) for one pixel.  The red branch
overrides the green result only when its score is strictly larger; the
pixel is pushed only when a branch fired and the final score is positive. -/
def candidateAt (satT bloomT : ℚ) (mode : ColorMode) (f : Frame) (x y : ℕ) :
    Option Candidate :=
  match pix3 f x y with
  | none => none
  | some (r, g, b) =>
    if (r + g + b) / 3 < bloomT then none
    else
      let s1 : ℚ := if greenFires satT bloomT mode r g b then greenScoreOf r g b else 0
      let s2 : ℚ :=
        if redFires satT bloomT mode r g b ∧ s1 < redScoreOf r g b then redScoreOf r g b
        else s1
      if (greenFires satT bloomT mode r g b ∨
          (redFires satT bloomT mode r g b ∧ s1 < redScoreOf r g b)) ∧ 0 < s2 then
        some ⟨x, y, r, g, b, s2⟩
      else none

/-- The coordinates visited by the scan loops (lines 62-63):
`for (y = 0; y < height; y += 2) for (x = 0; x < width; x += 2)`. -/
def scanCoords (w h : ℕ) : List (ℕ × ℕ) :=
  (List.range' 0 ((h + 1) / 2) 2).flatMap (fun y =>
    (List.range' 0 ((w + 1) / 2) 2).map (fun x => (x, y)))

/-- The candidate list accumulated by the scan loop. -/
def scanCandidates (satT bloomT : ℚ) (mode : ColorMode) (f : Frame) : List Candidate :=
  (scanCoords f.width f.height).filterMap (fun p => candidateAt satT bloomT mode f p.1 p.2)

/-- Lines 113-114: sort the candidates descending by score (a stable sort)
and take element 0.  Equivalently: the first candidate, in scan order,
whose score is maximal. -/
def pickTop : List Candidate → Option Candidate
  | [] => none
  | c :: rest => some (rest.foldl (fun best d => if d.score > best.score then d else best) c)

/-- In-bounds test and coordinate of a neighborhood sample (lines 122-125 /
158-161): skip when `nx < 0 || nx >= width || ny < 0 || ny >= height`. -/
def inBoundsAt (f : Frame) (cx cy : ℕ) (dx dy : ℤ) : Option (ℕ × ℕ) :=
  let nx := (cx : ℤ) + dx
  let ny := (cy : ℤ) + dy
  if 0 ≤ nx ∧ nx < (f.width : ℤ) ∧ 0 ≤ ny ∧ ny < (f.height : ℤ) then
    some (nx.toNat, ny.toNat)
  else none

/-- Mean brightness of a pixel, `none` when a channel read is out of range. -/
def brightnessAt (f : Frame) (p : ℕ × ℕ) : Option ℚ :=
  match pix3 f p.1 p.2 with
  | some (r, g, b) => some ((r + g + b) / 3)
  | none => none

/-- Bloom check offsets (lines 120-121): -15, -12, ..., 15. -/
def bloomOffsets : List ℤ := (List.range 11).map (fun k => -15 + 3 * (k : ℤ))

/-- The in-bounds sample coordinates of the bloom check; its length is the
`totalChecked` counter of the source. -/
def bloomCoords (f : Frame) (cx cy : ℕ) : List (ℕ × ℕ) :=
  bloomOffsets.flatMap (fun dy => bloomOffsets.filterMap (fun dx => inBoundsAt f cx cy dx dy))

/-- The `bloomPixels` counter (lines 130-133): in-bounds samples whose
brightness exceeds `bloomThreshold * 0.7` (false for NaN brightness). -/
def bloomBright (bloomT : ℚ) (f : Frame) (cx cy : ℕ) : ℕ :=
  ((bloomCoords f cx cy).filter (fun p =>
    match brightnessAt f p with
    | some q => decide (q > bloomT * 0.7)
    | none => false)).length

/-- Line 137: `bloomRatio = totalChecked > 0 ? bloomPixels / totalChecked : 0`. -/
def bloomFraction (bloomT : ℚ) (f : Frame) (cx cy : ℕ) : ℚ :=
  if 0 < (bloomCoords f cx cy).length then
    (bloomBright bloomT f cx cy : ℚ) / ((bloomCoords f cx cy).length : ℚ)
  else 0

/-- Line 138: `hasBloom = bloomRatio > 0.15 - sensitivityFactor * 0.1`. -/
abbrev hasBloomAt (bloomT sf : ℚ) (f : Frame) (cx cy : ℕ) : Prop :=
  bloomFraction bloomT f cx cy > 0.15 - sf * 0.1

/-- Refinement offsets (lines 154-157): -10, -9, ..., 10. -/
def refineOffsets : List ℤ := (List.range 21).map (fun k => (k : ℤ) - 10)

/-- The refinement samples (lines 156-173): every in-bounds pixel of the
radius-10 square around the candidate whose brightness exceeds
`saturationThreshold`, paired with its brightness (the weight). -/
def refineList (satT : ℚ) (f : Frame) (cx cy : ℕ) : List (ℕ × ℕ × ℚ) :=
  refineOffsets.flatMap (fun dy => refineOffsets.filterMap (fun dx =>
    match inBoundsAt f cx cy dx dy with
    | some p =>
      match brightnessAt f p with
      | some q => if q > satT then some (p.1, p.2, q) else none
      | none => none
    | none => none))

/-- Accumulator `sumX += nx * weight` over the refinement loop. -/
def refineSumX (satT : ℚ) (f : Frame) (cx cy : ℕ) : ℚ :=
  ((refineList satT f cx cy).map (fun p => (p.1 : ℚ) * p.2.2)).sum

/-- Accumulator `sumY += ny * weight` over the refinement loop. -/
def refineSumY (satT : ℚ) (f : Frame) (cx cy : ℕ) : ℚ :=
  ((refineList satT f cx cy).map (fun p => (p.2.1 : ℚ) * p.2.2)).sum

/-- Accumulator `sumWeight += weight` over the refinement loop. -/
def refineSumW (satT : ℚ) (f : Frame) (cx cy : ℕ) : ℚ :=
  ((refineList satT f cx cy).map (fun p => p.2.2)).sum

/-- Line 50: `sensitivityFactor = settings.sensitivity / 100`. -/
def sensFactor (s : DetectorSettings) : ℚ := s.sensitivity / 100

/-- Line 51: `saturationThreshold = 250 - sensitivityFactor * 50`. -/
def satThresholdOf (s : DetectorSettings) : ℚ := 250 - sensFactor s * 50

/-- Line 52 with the constant 200 exposed as a parameter, so that the
specification's calibrated variant can be expressed with the same body:
`bloomThreshold = base - sensitivityFactor * 80`, base = 200 in the source. -/
def bloomThresholdB (base : ℚ) (s : DetectorSettings) : ℚ := base - sensFactor s * 80

/-- Line 139: `minScore = 200 - sensitivityFactor * 100`. -/
def minScoreOf (s : DetectorSettings) : ℚ := 200 - sensFactor s * 100

/-- The candidate scan with the bloom-threshold base as a parameter. -/
def scanB (base : ℚ) (f : Frame) (s : DetectorSettings) : List Candidate :=
  scanCandidates (satThresholdOf s) (bloomThresholdB base s) s.colorMode f

/-- The top candidate with the bloom-threshold base as a parameter. -/
def topB (base : ℚ) (f : Frame) (s : DetectorSettings) : Option Candidate :=
  pickTop (scanB base f s)

/-- detectLaser (lines 41-188) with the bloom-threshold base a parameter.
Empty candidate list: return found=false (lines 109-111).  Otherwise check
the top candidate (line 141); on success refine the position (lines
153-178) and decide the color from the channels (lines 147-151); the final
return (lines 181-187) uses maxScore = 0 when the checks failed. -/
def detectB (base : ℚ) (f : Frame) (s : DetectorSettings) : DetectionResult :=
  match topB base f s with
  | none => ⟨false, 0, 0, 0, none⟩
  | some tc =>
    if minScoreOf s < tc.score ∧
        hasBloomAt (bloomThresholdB base s) (sensFactor s) f tc.x tc.y then
      let satT := satThresholdOf s
      let sw := refineSumW satT f tc.x tc.y
      ⟨true,
       if 0 < sw then ((jsRound (refineSumX satT f tc.x tc.y / sw) : ℤ) : ℚ) else (tc.x : ℚ),
       if 0 < sw then ((jsRound (refineSumY satT f tc.x tc.y / sw) : ℤ) : ℚ) else (tc.y : ℚ),
       min 100 (jsRound (tc.score / 4)),
       some (if tc.g > tc.r then LaserColor.green else LaserColor.red)⟩
    else ⟨false, 0, 0, min 100 (jsRound (0 / 4)), none⟩

/-- detectLaser of useLaserDetector.ts: the bloom-threshold base is the
hard-coded constant 200 of line 52. -/
def detectLaser (f : Frame) (s : DetectorSettings) : DetectionResult := detectB 200 f s

/-- The result returned when nothing is found. -/
def noDetection : DetectionResult := ⟨false, 0, 0, 0, none⟩

/-- Modelled from the spec (section 4.2): the scanner the specification
describes derives the bloom-threshold base from `calibration.derivedThreshold`
when a completed calibration state is present and falls back to the constant
200 when it is absent.  The source file never implements this wiring; the
definition exists to compare the claim against the code. -/
def calibBase : Option CalibrationState → ℚ
  | some c => c.threshold
  | none => 200

/-- Modelled from the spec (section 4.2): detection as specified, with the
working thresholds derived from the installed calibration state. -/
def detectLaserCalibSpec (calib : Option CalibrationState) (f : Frame)
    (s : DetectorSettings) : DetectionResult :=
  detectB (calibBase calib) f s

/-- The per-frame detection call of processFrame (lines 332-334):
`detectLaser(imageData, settings)`.  The installed calibration state is
taken as an argument to express claims about it, but the source passes only
the frame and the settings; calibrationDataRef is written by
startCalibration and never read anywhere. -/
def pipelineDetect (_calib : Option CalibrationState) (f : Frame)
    (s : DetectorSettings) : DetectionResult :=
  detectLaser f s

/-- smoothPosition (lines 279-291) acting on an explicit history list:
push, shift when over `smoothing + 1`, return the history mean (or the
input when the history ended up empty). -/
def smoothPositionRun (hist : List (ℚ × ℚ)) (x y w : ℚ) : List (ℚ × ℚ) × (ℚ × ℚ) :=
  let h1 := hist ++ [(x, y)]
  let h2 := if (h1.length : ℚ) > w + 1 then h1.tail else h1
  if h2.length = 0 then (h2, (x, y))
  else (h2, (listMean (h2.map Prod.fst), listMean (h2.map Prod.snd)))

/-- The per-frame smoothing-and-reset step of processFrame (lines 333-340):
smooth when found and smoothing > 0, clear the history when not found,
otherwise leave both untouched. -/
def processFrameStep (s : DetectorSettings) (hist : List (ℚ × ℚ)) (f : Frame) :
    List (ℚ × ℚ) × DetectionResult :=
  let det := detectLaser f s
  if det.found = true ∧ s.smoothing > 0 then
    let hp := smoothPositionRun hist det.x det.y s.smoothing
    (hp.1, ⟨det.found, hp.2.1, hp.2.2, det.intensity, det.detectedColor⟩)
  else if det.found = false then ([], det)
  else (hist, det)

/-- The calibration brightness accumulator (lines 256-259):
`for (i = 0; i < data.length; i += 4) total += (data[i]+data[i+1]+data[i+2])/3`.
Calibration frames come from getImageData and always have length 4*w*h;
the trailing-partial-pixel case (unreachable there) contributes nothing. -/
def sumBrightness : List ℚ → ℚ
  | r :: g :: b :: _ :: rest => (r + g + b) / 3 + sumBrightness rest
  | _ => 0

/-- Line 260: `avgBrightness = totalBrightness / (data.length / 4)`. -/
def frameAvgBrightness (f : Frame) : ℚ :=
  sumBrightness f.data / ((f.data.length : ℚ) / 4)

/-- Mean channel brightness of pixel i of a flat byte list. -/
def pixelMeanAt (d : List ℚ) (i : ℕ) : ℚ :=
  (((d.get? (4 * i)).getD 0) + ((d.get? (4 * i + 1)).getD 0) +
    ((d.get? (4 * i + 2)).getD 0)) / 3

/-- One round of collectFrame (lines 246-273) on explicit state: append the
frame's average brightness; if less than 2000 ms have elapsed, keep going
with no completed state, otherwise complete with
`avg = mean(frames)` and `threshold = avg + 50 + (100 - sensitivity)`. -/
def calibStep (sensitivity startTime : ℚ) (frames : List ℚ) (f : Frame) (now : ℚ) :
    List ℚ × Option CalibrationState :=
  let frames1 := frames ++ [frameAvgBrightness f]
  if now - startTime < 2000 then (frames1, none)
  else (frames1, some ⟨listMean frames1, listMean frames1 + 50 + (100 - sensitivity)⟩)

/- Concrete test fixtures used by the witnesses and counterexamples. -/

/-- Default-like settings with sensitivity 50, auto color mode. -/
def s50 : DetectorSettings := ⟨50, ColorMode.auto, 3, true, false, 0⟩

/-- Settings with an out-of-range sensitivity of 200. -/
def sensHigh : DetectorSettings := ⟨200, ColorMode.auto, 3, true, false, 0⟩

/-- Settings with sensitivity at the upper documented bound 100. -/
def sensTop : DetectorSettings := ⟨100, ColorMode.auto, 3, true, false, 0⟩

/-- A w by h frame all of whose pixels are R=G=B=128 (alpha 128 as well;
the detector never reads alpha). -/
def grayFrame (w h : ℕ) : Frame := ⟨w, h, List.replicate (w * h * 4) 128⟩

/-- A well-formed 1-by-1 frame holding one bright greenish pixel. -/
def frameC : Frame := ⟨1, 1, [200, 255, 150, 255]⟩

/-- A malformed 1-by-1 frame: 3 bytes instead of the 4 required. -/
def shortFrame : Frame := ⟨1, 1, [200, 255, 150]⟩

/-- A 1-by-1 frame with a dim pure-green pixel. -/
def dimGreenFrame : Frame := ⟨1, 1, [0, 150, 0, 255]⟩

/-- A 1-by-1 dark frame. -/
def darkFrame : Frame := ⟨1, 1, [0, 0, 0, 255]⟩

/-- A 1-by-1 calibration frame with pixel (10, 20, 30). -/
def calFrame : Frame := ⟨1, 1, [10, 20, 30, 255]⟩

/- Helper lemmas. -/

/-- The fold that models sort-descending-then-take-first stays inside the list. -/
theorem foldl_best_mem (rest : List Candidate) : ∀ a : Candidate,
    rest.foldl (fun best d => if d.score > best.score then d else best) a ∈ a :: rest := by
  induction rest with
  | nil => intro a; simp
  | cons d rest ih =>
    intro a
    simp only [List.foldl_cons]
    have h2 := ih (if d.score > a.score then d else a)
    rcases List.mem_cons.mp h2 with h3 | h3
    · rw [h3]
      split
      · exact List.mem_cons_of_mem a (List.mem_cons_self d rest)
      · exact List.mem_cons_self a (d :: rest)
    · exact List.mem_cons_of_mem a (List.mem_cons_of_mem d h3)

/-- The top candidate is one of the scanned candidates. -/
theorem pickTop_mem {l : List Candidate} {c : Candidate} (h : pickTop l = some c) :
    c ∈ l := by
  cases l with
  | nil => simp [pickTop] at h
  | cons a rest =>
    have h2 : rest.foldl (fun best d => if d.score > best.score then d else best) a = c := by
      simpa [pickTop] using h
    rw [← h2]
    exact foldl_best_mem rest a

/-- An if-then-else between some and none resolving to some forces the
condition and identifies the value. -/
theorem ite_some_eq {α : Type} {P : Prop} [Decidable P] {v c : α}
    (h : (if P then some v else none) = some c) : P ∧ c = v := by
  split_ifs at h with hp
  cases h
  exact ⟨hp, rfl⟩

/-- A pixel is only pushed as a candidate with a positive score (line 103). -/
theorem candidateAt_score_pos {satT bloomT : ℚ} {mode : ColorMode} {f : Frame}
    {x y : ℕ} {c : Candidate} (h : candidateAt satT bloomT mode f x y = some c) :
    0 < c.score := by
  rcases hp : pix3 f x y with _ | ⟨r, g, b⟩
  · simp only [candidateAt, hp] at h
    exact Option.noConfusion h
  · simp only [candidateAt, hp] at h
    by_cases hb : (r + g + b) / 3 < bloomT
    · rw [if_pos hb] at h
      exact Option.noConfusion h
    · rw [if_neg hb] at h
      obtain ⟨hc, hv⟩ := ite_some_eq h
      rw [hv]
      exact hc.2

/-- Every candidate produced by the scan has a positive score. -/
theorem scan_score_pos {satT bloomT : ℚ} {mode : ColorMode} {f : Frame} {c : Candidate}
    (h : c ∈ scanCandidates satT bloomT mode f) : 0 < c.score := by
  unfold scanCandidates at h
  rw [List.mem_filterMap] at h
  obtain ⟨p, _, hp⟩ := h
  exact candidateAt_score_pos hp

/-- Every refinement sample has brightness above the saturation threshold. -/
theorem refineList_mem_gt {satT : ℚ} {f : Frame} {cx cy : ℕ} {p : ℕ × ℕ × ℚ}
    (h : p ∈ refineList satT f cx cy) : satT < p.2.2 := by
  unfold refineList at h
  rw [List.mem_flatMap] at h
  obtain ⟨dy, _, h2⟩ := h
  rw [List.mem_filterMap] at h2
  obtain ⟨dx, _, h3⟩ := h2
  rcases hib : inBoundsAt f cx cy dx dy with _ | q <;> simp only [hib] at h3
  · exact Option.noConfusion h3
  · rcases hbr : brightnessAt f q with _ | br <;> simp only [hbr] at h3
    · exact Option.noConfusion h3
    · obtain ⟨hgt, hv⟩ := ite_some_eq h3
      rw [hv]
      exact hgt

/-- A byte of the uniform gray frame reads as 128 when in range. -/
theorem pix3_gray (w h x y : ℕ) :
    pix3 (grayFrame w h) x y = none ∨
    pix3 (grayFrame w h) x y = some (128, 128, 128) := by
  rcases lt_or_ge ((y * w + x) * 4 + 2) (w * h * 4) with hlt | hge
  · right
    have h0 : (y * w + x) * 4 < w * h * 4 := by omega
    have h1 : (y * w + x) * 4 + 1 < w * h * 4 := by omega
    simp [pix3, grayFrame, List.getElem?_replicate, h0, h1, hlt]
  · left
    have h2 : ¬ ((y * w + x) * 4 + 2 < w * h * 4) := by omega
    by_cases h0 : (y * w + x) * 4 < w * h * 4 <;>
      by_cases h1 : (y * w + x) * 4 + 1 < w * h * 4 <;>
        simp [pix3, grayFrame, List.getElem?_replicate, h0, h1, h2]

/-- No pixel of the uniform gray frame can become a candidate once the
saturation threshold is at least 200 (neither dominance nor bloom condition
can hold at r = g = b). -/
theorem gray_candidateAt_none (satT bloomT : ℚ) (hsat : 200 ≤ satT)
    (mode : ColorMode) (w h x y : ℕ) :
    candidateAt satT bloomT mode (grayFrame w h) x y = none := by
  rcases pix3_gray w h x y with hp | hp <;> simp only [candidateAt, hp]
  have hg : ¬ greenFires satT bloomT mode 128 128 128 := by
    rintro ⟨-, hfire⟩
    rcases hfire with ⟨hge, -⟩ | ⟨-, -, h11⟩
    · linarith
    · norm_num at h11
  have hr : ¬ redFires satT bloomT mode 128 128 128 := by
    rintro ⟨-, hfire⟩
    rcases hfire with ⟨hge, -⟩ | ⟨-, h12, -⟩
    · linarith
    · norm_num at h12
  by_cases hb : ((128 : ℚ) + 128 + 128) / 3 < bloomT
  · rw [if_pos hb]
  · rw [if_neg hb, if_neg]
    rintro ⟨hfire | ⟨hfire, -⟩, -⟩
    · exact hg hfire
    · exact hr hfire

/-- The documented sensitivity range keeps the saturation threshold at 200
or above. -/
theorem satThreshold_ge (s : DetectorSettings) (h1 : s.sensitivity ≤ 100) :
    200 ≤ satThresholdOf s := by
  unfold satThresholdOf sensFactor
  have h2 : s.sensitivity / 100 ≤ 1 := (div_le_one (by norm_num)).mpr h1
  nlinarith

/-- The smoother applied to an empty history returns the input position. -/
theorem smooth_empty (x y w : ℚ) : (smoothPositionRun [] x y w).2 = (x, y) := by
  simp only [smoothPositionRun, List.nil_append]
  by_cases hc : ((([(x, y)] : List (ℚ × ℚ)).length : ℚ) > w + 1)
  · rw [if_pos hc]
    simp
  · rw [if_neg hc]
    simp [listMean]

/-- Index arithmetic for the chunked brightness sum. -/
theorem pixelMeanAt_cons4 (r g b a : ℚ) (rest : List ℚ) (i : ℕ) :
    pixelMeanAt (r :: g :: b :: a :: rest) (i + 1) = pixelMeanAt rest i := by
  unfold pixelMeanAt
  have e0 : 4 * (i + 1) = 4 * i + 4 := by ring
  rw [e0]
  have e1 : 4 * i + 4 + 1 = (4 * i + 1) + 4 := by ring
  have e2 : 4 * i + 4 + 2 = (4 * i + 2) + 4 := by ring
  rw [e1, e2]
  have h4 : ∀ (l : List ℚ) (k : ℕ), (r :: g :: b :: a :: l).get? (k + 4) = l.get? k := by
    intro l k
    rfl
  rw [h4, h4, h4]

/-- The calibration brightness loop computes the sum of the per-pixel mean
brightnesses. -/
theorem sumBrightness_eq : ∀ (n : ℕ) (d : List ℚ), d.length = 4 * n →
    sumBrightness d = ∑ i in Finset.range n, pixelMeanAt d i := by
  intro n
  induction n with
  | zero =>
    intro d hd
    rw [Nat.mul_zero] at hd
    rw [List.length_eq_zero] at hd
    subst hd
    simp [sumBrightness]
  | succ n ih =>
    intro d hd
    rcases d with _ | ⟨r, d⟩
    · simp only [List.length_nil] at hd; omega
    rcases d with _ | ⟨g, d⟩
    · simp only [List.length_cons, List.length_nil] at hd; omega
    rcases d with _ | ⟨b, d⟩
    · simp only [List.length_cons, List.length_nil] at hd; omega
    rcases d with _ | ⟨a, rest⟩
    · simp only [List.length_cons, List.length_nil] at hd; omega
    have hrest : rest.length = 4 * n := by
      simp only [List.length_cons] at hd; omega
    rw [show sumBrightness (r :: g :: b :: a :: rest) = (r + g + b) / 3 + sumBrightness rest
      from rfl]
    rw [ih rest hrest, Finset.sum_range_succ']
    have h0 : pixelMeanAt (r :: g :: b :: a :: rest) 0 = (r + g + b) / 3 := by
      unfold pixelMeanAt
      rfl
    rw [h0, Finset.sum_congr rfl (fun i _ => pixelMeanAt_cons4 r g b a rest i)]
    ring

/- Claim theorems. -/

/-- C1 (amended): the per-frame detection of processFrame never consults the
installed calibration state; for every calibration state (present, completed
or absent) it behaves exactly as the specification's scanner does with NO
calibration installed, i.e. with the constant bloom-threshold base 200.
calibrationDataRef is written by startCalibration and never read. -/
theorem C1_calibrationUnused (calib : Option CalibrationState) (f : Frame)
    (s : DetectorSettings) :
    pipelineDetect calib f s = detectLaserCalibSpec none f s := rfl

/-- C1 counterexample: with a completed calibration state of derived
threshold 300 installed, the claim predicts the scan works from base 300 and
finds nothing in frameC, but the pipeline detects a beam there: the
detection result does not depend on the installed calibration state and the
working thresholds are not derived from calibration.derivedThreshold. -/
theorem C1_cex :
    (pipelineDetect (some ⟨200, 300⟩) frameC s50).found = true ∧
    (detectLaserCalibSpec (some ⟨200, 300⟩) frameC s50).found = false := by
  with_unfolding_all decide

/-- C2 counterexample: a malformed frame (3 bytes for a 1-by-1 frame, fewer
than width * height * 4) is not rejected: detectLaser scans it and even
reports a detection, so no InvalidFrame fail-fast path exists. -/
theorem C2_cex :
    shortFrame.data.length < 4 * (shortFrame.width * shortFrame.height) ∧
    (detectLaser shortFrame s50).found = true := by
  with_unfolding_all decide

/-- C2 (amended): detectLaser performs no frame validation and signals no
error condition; a zero-sized frame is simply scanned over no pixels and
yields the ordinary no-detection result. -/
theorem C2_zeroSized (f : Frame) (s : DetectorSettings)
    (hz : f.width = 0 ∨ f.height = 0) : detectLaser f s = noDetection := by
  have hscan : scanCoords f.width f.height = [] := by
    rcases hz with hz | hz <;> rw [hz] <;> simp [scanCoords]
  unfold detectLaser detectB topB scanB scanCandidates
  rw [hscan]
  rfl

/-- C2 witness: the zero-width frame evaluates to the no-detection result. -/
theorem C2_zeroSized_witness : detectLaser ⟨0, 5, []⟩ s50 = noDetection :=
  C2_zeroSized ⟨0, 5, []⟩ s50 (Or.inl rfl)

/-- C3 counterexample: sensitivity 200 is out of range; the claim says
detection must behave exactly as at the clamped bound 100, but on
dimGreenFrame the unclamped value detects a beam while sensitivity 100 does
not. -/
theorem C3_cex : detectLaser dimGreenFrame sensHigh ≠ detectLaser dimGreenFrame sensTop := by
  with_unfolding_all decide

/-- C3 (amended): neither sensitivity nor the smoothing window is clamped;
out-of-range values are used as-is.  Sensitivity 200 yields a detection that
the in-range bound 100 does not, and a smoothing window of 11 (above the
documented maximum 10) retains 12 history entries where clamping to 10 would
allow at most 11. -/
theorem C3_noClamping :
    (detectLaser dimGreenFrame sensHigh).found = true ∧
    (detectLaser dimGreenFrame sensTop).found = false ∧
    (smoothPositionRun (List.replicate 11 ((0 : ℚ), (0 : ℚ))) 9 9 11).1.length = 12 := by
  with_unfolding_all decide

/-- C4: a uniform gray frame (every pixel R=G=B=128) yields found = false
for every frame size, color mode and in-range sensitivity: the saturation
conditions need a channel at 200 or above and the bloom conditions need
strict dominance over an equal channel, so no pixel ever becomes a
candidate. -/
theorem C4_noSignal (w h : ℕ) (s : DetectorSettings)
    (h0 : 0 ≤ s.sensitivity) (h1 : s.sensitivity ≤ 100) :
    detectLaser (grayFrame w h) s = noDetection := by
  have hsat : 200 ≤ satThresholdOf s := satThreshold_ge s h1
  have hscan : scanB 200 (grayFrame w h) s = [] := by
    unfold scanB scanCandidates
    rw [List.filterMap_eq_nil_iff]
    intro p _
    exact gray_candidateAt_none _ _ hsat s.colorMode w h p.1 p.2
  unfold detectLaser detectB topB
  rw [hscan]
  rfl

/-- C4 witness: the 2-by-2 gray frame with the default settings. -/
theorem C4_witness : detectLaser (grayFrame 2 2) s50 = noDetection :=
  C4_noSignal 2 2 s50 (by norm_num [s50]) (by norm_num [s50])

/-- C5: when the top candidate passes both the score check and the bloom
check, the reported position is the brightness-weighted centroid, rounded to
the nearest integer pixel, of the in-bounds pixels in the radius-10 square
around it whose brightness exceeds the saturation threshold; when no such
pixel exists, the reported position is the candidate's own coordinates. -/
theorem C5_refinement (f : Frame) (s : DetectorSettings) (tc : Candidate)
    (h1 : s.sensitivity ≤ 100)
    (htop : topB 200 f s = some tc)
    (hpass : minScoreOf s < tc.score ∧
      hasBloomAt (bloomThresholdB 200 s) (sensFactor s) f tc.x tc.y) :
    (refineList (satThresholdOf s) f tc.x tc.y ≠ [] →
      (detectLaser f s).x =
        ((jsRound (refineSumX (satThresholdOf s) f tc.x tc.y /
            refineSumW (satThresholdOf s) f tc.x tc.y) : ℤ) : ℚ) ∧
      (detectLaser f s).y =
        ((jsRound (refineSumY (satThresholdOf s) f tc.x tc.y /
            refineSumW (satThresholdOf s) f tc.x tc.y) : ℤ) : ℚ)) ∧
    (refineList (satThresholdOf s) f tc.x tc.y = [] →
      (detectLaser f s).x = (tc.x : ℚ) ∧ (detectLaser f s).y = (tc.y : ℚ)) := by
  have hsat : (0 : ℚ) < satThresholdOf s := lt_of_lt_of_le (by norm_num) (satThreshold_ge s h1)
  unfold detectLaser detectB
  simp only [htop]
  rw [if_pos hpass]
  constructor
  · intro hne
    have hw : 0 < refineSumW (satThresholdOf s) f tc.x tc.y := by
      unfold refineSumW
      apply List.sum_pos
      · intro q hq
        rw [List.mem_map] at hq
        obtain ⟨p, hp, rfl⟩ := hq
        exact lt_trans hsat (refineList_mem_gt hp)
      · simpa using hne
    simp [if_pos hw]
  · intro hnil
    have hw : ¬ (0 < refineSumW (satThresholdOf s) f tc.x tc.y) := by
      unfold refineSumW
      rw [hnil]
      simp
    simp [if_neg hw]

/-- C5 witness: on frameC with the default settings the top candidate passes
both checks, no neighborhood pixel reaches the saturation threshold 225, and
the reported position falls back to the candidate's own coordinates. -/
theorem C5_witness :
    refineList (satThresholdOf s50) frameC 0 0 = [] ∧
    (detectLaser frameC s50).x = ((0 : ℕ) : ℚ) ∧
    (detectLaser frameC s50).y = ((0 : ℕ) : ℚ) := by
  have h := C5_refinement frameC s50 ⟨0, 0, 200, 255, 150, 365⟩
    (by norm_num [s50]) (by with_unfolding_all decide) (by with_unfolding_all decide)
  have hnil : refineList (satThresholdOf s50) frameC 0 0 = [] := by
    with_unfolding_all decide
  exact ⟨hnil, h.2 hnil⟩

/-- C6: the reported intensity is always an integer in [0, 100], and
whenever a beam is found it equals min(100, round(topCandidate.score / 4)). -/
theorem C6_intensity (f : Frame) (s : DetectorSettings) :
    (0 ≤ (detectLaser f s).intensity ∧ (detectLaser f s).intensity ≤ 100) ∧
    ((detectLaser f s).found = true →
      ∃ tc, topB 200 f s = some tc ∧
        (detectLaser f s).intensity = min 100 (jsRound (tc.score / 4))) := by
  rcases htop : topB 200 f s with _ | tc
  · unfold detectLaser detectB
    rw [htop]
    refine ⟨⟨le_refl 0, by norm_num⟩, ?_⟩
    intro hf
    exact absurd hf (by simp)
  · have hmem : tc ∈ scanB 200 f s := pickTop_mem htop
    have hscore : 0 < tc.score := scan_score_pos hmem
    by_cases hpass : minScoreOf s < tc.score ∧
        hasBloomAt (bloomThresholdB 200 s) (sensFactor s) f tc.x tc.y
    · unfold detectLaser detectB
      simp only [htop]
      rw [if_pos hpass]
      have hjr : 0 ≤ jsRound (tc.score / 4) := by
        unfold jsRound
        apply Int.floor_nonneg.mpr
        have h4 : 0 < tc.score / 4 := by positivity
        linarith
      refine ⟨⟨le_min (by norm_num) hjr, min_le_left _ _⟩, ?_⟩
      intro _
      exact ⟨tc, rfl, rfl⟩
    · unfold detectLaser detectB
      simp only [htop]
      rw [if_neg hpass]
      have hz : min (100 : ℤ) (jsRound (0 / 4)) = 0 := by
        norm_num [jsRound]
      refine ⟨⟨?_, ?_⟩, ?_⟩
      · show 0 ≤ min (100 : ℤ) (jsRound (0 / 4))
        rw [hz]
      · show min (100 : ℤ) (jsRound (0 / 4)) ≤ 100
        rw [hz]
        norm_num
      · intro hf
        exact absurd hf (by simp)

/-- C6 witness: on frameC the beam is found and the intensity obeys the
min(100, round(score/4)) formula for the top candidate. -/
theorem C6_witness :
    ∃ tc, topB 200 frameC s50 = some tc ∧
      (detectLaser frameC s50).intensity = min 100 (jsRound (tc.score / 4)) :=
  (C6_intensity frameC s50).2 (by with_unfolding_all decide)

/-- C10: whenever detection reports found = false -- no candidate, or the
top candidate failing the bloom or score check -- the full result is exactly
x = 0, y = 0, intensity = 0, detectedColor = none. -/
theorem C10_notFoundZero (f : Frame) (s : DetectorSettings)
    (h : (detectLaser f s).found = false) : detectLaser f s = noDetection := by
  rcases htop : topB 200 f s with _ | tc
  · unfold detectLaser detectB
    rw [htop]
    rfl
  · by_cases hpass : minScoreOf s < tc.score ∧
        hasBloomAt (bloomThresholdB 200 s) (sensFactor s) f tc.x tc.y
    · exfalso
      unfold detectLaser detectB at h
      simp only [htop] at h
      rw [if_pos hpass] at h
      exact absurd h (by simp)
    · unfold detectLaser detectB
      simp only [htop]
      rw [if_neg hpass]
      unfold noDetection
      have hz : min (100 : ℤ) (jsRound (0 / 4)) = 0 := by
        norm_num [jsRound]
      rw [hz]

/-- C10 witness: a dark frame reports found = false with the all-zero result. -/
theorem C10_witness : detectLaser darkFrame s50 = noDetection :=
  C10_notFoundZero darkFrame s50 (by with_unfolding_all decide)

/-- C7: one observe call appends the position; exactly the oldest entry is
discarded when the history would exceed smoothingWindow + 1 entries, so the
length never exceeds smoothingWindow + 1; the returned position is the
arithmetic mean of the positions now held; and smoothingWindow = 0 is
passthrough. -/
theorem C7_smoother (hist : List (ℚ × ℚ)) (x y w : ℚ)
    (hw : 0 ≤ w) (hlen : (hist.length : ℚ) ≤ w + 1) :
    (smoothPositionRun hist x y w).1 =
      (if ((hist.length : ℚ) + 1 > w + 1) then (hist ++ [(x, y)]).tail
       else hist ++ [(x, y)]) ∧
    ((smoothPositionRun hist x y w).1.length : ℚ) ≤ w + 1 ∧
    (smoothPositionRun hist x y w).2 =
      (listMean ((smoothPositionRun hist x y w).1.map Prod.fst),
       listMean ((smoothPositionRun hist x y w).1.map Prod.snd)) ∧
    (w = 0 → (smoothPositionRun hist x y w).2 = (x, y)) := by
  have hlapp : ((hist ++ [(x, y)]).length : ℚ) = (hist.length : ℚ) + 1 := by
    push_cast [List.length_append, List.length_singleton]
    ring
  by_cases hc : ((hist.length : ℚ) + 1 > w + 1)
  · have hpos : 0 < hist.length := by
      have h2 : (0 : ℚ) < (hist.length : ℚ) := by linarith
      exact_mod_cast h2
    have htl : (hist ++ [(x, y)]).tail.length = hist.length := by
      simp
    have hrun : smoothPositionRun hist x y w =
        ((hist ++ [(x, y)]).tail,
         (listMean ((hist ++ [(x, y)]).tail.map Prod.fst),
          listMean ((hist ++ [(x, y)]).tail.map Prod.snd))) := by
      simp only [smoothPositionRun]
      rw [hlapp, if_pos hc, htl, if_neg (show ¬ (hist.length = 0) by omega)]
    rw [hrun]
    refine ⟨?_, ?_, rfl, ?_⟩
    · rw [if_pos hc]
    · rw [htl]
      exact hlen
    · intro hw0
      subst hw0
      have h1 : (hist.length : ℚ) ≤ 1 := by linarith
      have h2 : hist.length ≤ 1 := by exact_mod_cast h1
      have heq : hist.length = 1 := by omega
      obtain ⟨a, ha⟩ := List.length_eq_one.mp heq
      subst ha
      simp [listMean]
  · have hne : ¬ ((hist ++ [(x, y)]).length = 0) := by simp
    have hrun : smoothPositionRun hist x y w =
        (hist ++ [(x, y)],
         (listMean ((hist ++ [(x, y)]).map Prod.fst),
          listMean ((hist ++ [(x, y)]).map Prod.snd))) := by
      simp only [smoothPositionRun]
      rw [hlapp, if_neg hc, if_neg hne]
    rw [hrun]
    refine ⟨?_, ?_, rfl, ?_⟩
    · rw [if_neg hc]
    · rw [hlapp]
      exact not_lt.mp hc
    · intro hw0
      subst hw0
      have h1 : (hist.length : ℚ) + 1 ≤ 0 + 1 := not_lt.mp hc
      have h2 : (hist.length : ℚ) ≤ 0 := by linarith
      have h3 : hist.length ≤ 0 := by exact_mod_cast h2
      have h0 : hist = [] := by
        rw [← List.length_eq_zero]
        omega
      subst h0
      simp [listMean]

/-- C7 witness: a two-entry history with window 3 appends without shifting
and returns the mean of the three held positions. -/
theorem C7_witness :
    (smoothPositionRun [((1 : ℚ), (2 : ℚ)), (3, 4)] 5 6 3).1 = [(1, 2), (3, 4), (5, 6)] ∧
    (smoothPositionRun [((1 : ℚ), (2 : ℚ)), (3, 4)] 5 6 3).2 = (3, 4) := by
  have h := C7_smoother [((1 : ℚ), (2 : ℚ)), (3, 4)] 5 6 3 (by norm_num) (by norm_num)
  constructor
  · rw [h.1]
    with_unfolding_all decide
  · rw [h.2.2.1, h.1]
    with_unfolding_all decide

/-- C8: any frame that reports found = false empties the position history,
and the next frame that reports found = true reports the raw refined
position of detectLaser, not a blend with earlier positions. -/
theorem C8_resetOnLoss (s1 s2 : DetectorSettings) (hist : List (ℚ × ℚ)) (f1 f2 : Frame)
    (hlost : (detectLaser f1 s1).found = false)
    (hfound : (detectLaser f2 s2).found = true) :
    (processFrameStep s1 hist f1).1 = [] ∧
    (processFrameStep s2 (processFrameStep s1 hist f1).1 f2).2.x = (detectLaser f2 s2).x ∧
    (processFrameStep s2 (processFrameStep s1 hist f1).1 f2).2.y = (detectLaser f2 s2).y := by
  have e1 : (processFrameStep s1 hist f1).1 = [] := by
    have hneg : ¬ ((detectLaser f1 s1).found = true ∧ s1.smoothing > 0) := by
      rintro ⟨ha, -⟩
      rw [hlost] at ha
      exact Bool.false_ne_true ha
    simp only [processFrameStep]
    rw [if_neg hneg, if_pos hlost]
  refine ⟨e1, ?_⟩
  rw [e1]
  by_cases hsm : s2.smoothing > 0
  · have hpos2 : (detectLaser f2 s2).found = true ∧ s2.smoothing > 0 := ⟨hfound, hsm⟩
    simp only [processFrameStep]
    rw [if_pos hpos2, smooth_empty]
    exact ⟨rfl, rfl⟩
  · have hneg2 : ¬ ((detectLaser f2 s2).found = true ∧ s2.smoothing > 0) := fun hq => hsm hq.2
    have hneg3 : ¬ ((detectLaser f2 s2).found = false) := by
      rw [hfound]
      simp
    simp only [processFrameStep]
    rw [if_neg hneg2, if_neg hneg3]
    exact ⟨rfl, rfl⟩

/-- C8 witness: a gray frame (found = false) flushes a nonempty history and
the following detection on frameC reports detectLaser's own coordinates. -/
theorem C8_witness :
    (processFrameStep s50 [(3, 4)] (grayFrame 2 2)).1 = [] ∧
    (processFrameStep s50 (processFrameStep s50 [(3, 4)] (grayFrame 2 2)).1 frameC).2.x =
      (detectLaser frameC s50).x ∧
    (processFrameStep s50 (processFrameStep s50 [(3, 4)] (grayFrame 2 2)).1 frameC).2.y =
      (detectLaser frameC s50).y :=
  C8_resetOnLoss s50 s50 [(3, 4)] (grayFrame 2 2) frameC
    (by with_unfolding_all decide) (by with_unfolding_all decide)

/-- C9: before the 2000 ms window expires, ingesting a frame returns no
completed state; on expiry the completed state carries the arithmetic mean
of the per-frame averages and the threshold avg + 50 + (100 - sensitivity);
and each frame's recorded average is the mean of (R+G+B)/3 over its pixels. -/
theorem C9_calibration (sens start : ℚ) (frames : List ℚ) (f : Frame) (now : ℚ)
    (hlen : f.data.length = 4 * (f.width * f.height)) :
    ((now - start < 2000) → (calibStep sens start frames f now).2 = none) ∧
    (¬ (now - start < 2000) →
      (calibStep sens start frames f now).2 =
        some ⟨listMean (frames ++ [frameAvgBrightness f]),
              listMean (frames ++ [frameAvgBrightness f]) + 50 + (100 - sens)⟩) ∧
    frameAvgBrightness f =
      (∑ i in Finset.range (f.width * f.height), pixelMeanAt f.data i) /
        ((f.width * f.height : ℕ) : ℚ) := by
  refine ⟨?_, ?_, ?_⟩
  · intro hc
    simp only [calibStep]
    rw [if_pos hc]
  · intro hc
    simp only [calibStep]
    rw [if_neg hc]
  · unfold frameAvgBrightness
    rw [sumBrightness_eq (f.width * f.height) f.data hlen, hlen]
    have h4 : ((4 * (f.width * f.height) : ℕ) : ℚ) / 4 = ((f.width * f.height : ℕ) : ℚ) := by
      push_cast
      ring
    rw [h4]

/-- C9 witness: one well-formed 1-by-1 frame of average brightness 20
ingested after the window yields the completed state (20, 120) at
sensitivity 50. -/
theorem C9_witness : (calibStep 50 0 [] calFrame 2500).2 = some ⟨20, 120⟩ := by
  have h := (C9_calibration 50 0 [] calFrame 2500 (by with_unfolding_all decide)).2.1
    (by norm_num)
  rw [h]
  with_unfolding_all decide
